import Mathlib

/-!
Verification of the allocation and lifecycle subsystem of the RI_System
vehicle-scheduling service: the availability checker
(src/services/vehicleAvailabilityService.js), the status machine
(src/services/jobStatusService.js) and the assignment orchestrator
(JobAssignmentService in src/server.js), shallowly embedded as pure
functions over an explicit database state.

Dates are modelled as natural numbers (days) and times of day as natural
numbers (seconds); the source stores both as fixed-format strings or SQL
DATE/TIME values, whose lexicographic order coincides with numeric order.

Each operation of the source runs on a dedicated connection: it either
commits all of its own writes or rolls all of them back.  Crucially,
JobStatusService.updateJobStatus always opens its own connection and its
own transaction, even when invoked from inside
JobAssignmentService.assignJobToVehicle or unassignJob, which hold a
separate open transaction.  The embedding reproduces this: the inner
status update reads the committed state and commits its writes
immediately, while the assignment-row writes of the orchestrator stay
pending until the end of the orchestrator function.  The `postFail` flag
models a storage failure in the final steps of the orchestrator (the
detail fetch and the outer commit), after the inner status update has
already committed.
-/

namespace RISystem

/-- The five job statuses of the source enum. -/
inductive Status
  | pending
  | assigned
  | in_progress
  | completed
  | cancelled
deriving DecidableEq, Repr

/-- A row of the `jobs` table, restricted to the columns the allocation
and lifecycle logic reads. -/
structure Job where
  id : Nat
  scheduled_date : Nat
  scheduled_time_start : Nat
  scheduled_time_end : Nat
  current_status : Status
deriving DecidableEq, Repr

/-- A row of the `vehicles` table. -/
structure Vehicle where
  id : Nat
  vehicle_name : String
  license_plate : String
  is_active : Bool
deriving DecidableEq, Repr

/-- A row of the `job_assignments` table. -/
structure Assignment where
  job_id : Nat
  vehicle_id : Nat
  driver_id : Option Nat
  notes : Option String
  assigned_by : Nat
deriving DecidableEq, Repr

/-- A row of the `job_status_changes` history table. -/
structure StatusChange where
  job_id : Nat
  old_status : Status
  new_status : Status
  changed_by : Nat
  reason : Option String
deriving DecidableEq, Repr

/-- The committed database state, together with the reference date used
by the past-date validation of the availability checker. -/
structure DBState where
  today : Nat
  jobs : List Job
  vehicles : List Vehicle
  assignments : List Assignment
  status_changes : List StatusChange
deriving DecidableEq, Repr

/-- Error taxonomy: one constructor per distinct throw site reached by
the embedded operations. -/
inductive Err
  | invalidVehicleId
  | invalidWindow
  | dateInPast
  | jobNotFound (jobId : Nat)
  | vehicleNotFound (vehicleId : Nat)
  | vehicleInactive
  | assignmentNotAllowed (current : Status)
  | invalidTransition (current target : Status)
  | missingAssignment
  | timeConflict (conflicts : List Job)
  | notAssigned
  | cannotUnassignInProgress
  | cannotUnassignCompleted
  | availabilityCheckFailed (e : Err)
  | storageFailure
deriving DecidableEq, Repr

/-- `SELECT * FROM jobs WHERE id = ?` (first matching row). -/
def getJobById (s : DBState) (jobId : Nat) : Option Job :=
  s.jobs.find? (fun j => j.id == jobId)

/-- `SELECT * FROM vehicles WHERE id = ?` (first matching row). -/
def getVehicleById (s : DBState) (vehicleId : Nat) : Option Vehicle :=
  s.vehicles.find? (fun v => v.id == vehicleId)

/-- `current_status NOT IN ('completed', 'cancelled')`. -/
def isActiveStatus : Status → Bool
  | .completed => false
  | .cancelled => false
  | _ => true

/-- The optional `AND j.id != ?` clause of the conflict query.  The
source appends it only when `excludeJobId` is truthy, so `none` and
`some 0` both disable the exclusion. -/
def excludedByJobId (excludeJobId : Option Nat) (jobId : Nat) : Bool :=
  match excludeJobId with
  | none => false
  | some k => if k == 0 then false else jobId == k

/-- One candidate row of the conflict query of
`checkVehicleAvailability`: the assignment joined with its job, kept iff
the vehicle matches, the date matches, the job is active, the requested
window overlaps the job window, and the job is not excluded. -/
def conflictRow (s : DBState) (vehicleId date startTime endTime : Nat)
    (excludeJobId : Option Nat) (a : Assignment) : Option Job :=
  if a.vehicle_id == vehicleId then
    match getJobById s a.job_id with
    | some j =>
        if j.scheduled_date == date
            && isActiveStatus j.current_status
            && decide (startTime < j.scheduled_time_end)
            && decide (endTime > j.scheduled_time_start)
            && !(excludedByJobId excludeJobId j.id) then
          some j
        else
          none
    | none => none
  else
    none

/-- Insertion step of the `ORDER BY j.scheduled_time_start ASC` sort. -/
def insertByStart (j : Job) : List Job → List Job
  | [] => [j]
  | k :: rest =>
      if j.scheduled_time_start ≤ k.scheduled_time_start then
        j :: k :: rest
      else
        k :: insertByStart j rest

/-- `ORDER BY j.scheduled_time_start ASC`. -/
def sortByStart : List Job → List Job
  | [] => []
  | j :: rest => insertByStart j (sortByStart rest)

/-- The result set of the conflict query, ordered by ascending start
time. -/
def conflictJobs (s : DBState) (vehicleId date startTime endTime : Nat)
    (excludeJobId : Option Nat) : List Job :=
  sortByStart
    (s.assignments.filterMap (conflictRow s vehicleId date startTime endTime excludeJobId))

/-- The value returned by `checkVehicleAvailability` (the `details`
payload is omitted; it carries no decision-relevant data). -/
structure AvailabilityResult where
  isAvailable : Bool
  conflicts : List Job
  message : String
deriving DecidableEq, Repr

/-- `VehicleAvailabilityService.checkVehicleAvailability`.  Input
validation throws (modelled as `Except.error`); a missing or inactive
vehicle returns a normal result with `isAvailable := false` and an empty
conflict list; otherwise availability is decided by emptiness of the
conflict query result. -/
def checkVehicleAvailability (s : DBState) (vehicleId date startTime endTime : Nat)
    (excludeJobId : Option Nat) : Except Err AvailabilityResult :=
  if vehicleId == 0 then
    .error .invalidVehicleId
  else if endTime ≤ startTime then
    .error .invalidWindow
  else if date < s.today then
    .error .dateInPast
  else
    match getVehicleById s vehicleId with
    | none =>
        .ok { isAvailable := false, conflicts := [],
              message := "Vehicle with ID " ++ toString vehicleId ++ " does not exist" }
    | some v =>
        if v.is_active = false then
          .ok { isAvailable := false, conflicts := [],
                message := "Vehicle \"" ++ v.vehicle_name
                  ++ "\" is currently inactive (out of service)" }
        else
          let conflicts := conflictJobs s vehicleId date startTime endTime excludeJobId
          if conflicts.isEmpty then
            .ok { isAvailable := true, conflicts := [],
                  message := "Vehicle is available for this time slot" }
          else
            .ok { isAvailable := false, conflicts := conflicts,
                  message := "Vehicle already has " ++ toString conflicts.length
                    ++ " job(s) scheduled during this time" }

/-- `JobStatusService.ALLOWED_TRANSITIONS`. -/
def ALLOWED_TRANSITIONS : Status → List Status
  | .pending => [.assigned, .cancelled]
  | .assigned => [.in_progress, .cancelled, .pending]
  | .in_progress => [.completed, .cancelled]
  | .completed => []
  | .cancelled => [.pending]

/-- `JobStatusService.canTransitionTo`. -/
def canTransitionTo (currentStatus newStatus : Status) : Bool :=
  if currentStatus = newStatus then
    true
  else
    (ALLOWED_TRANSITIONS currentStatus).contains newStatus

/-- The row update applied by `UPDATE jobs SET current_status = ? WHERE id = ?`. -/
def setStatusIf (jobId : Nat) (newStatus : Status) (j : Job) : Job :=
  if j.id == jobId then { j with current_status := newStatus } else j

/-- `UPDATE jobs SET current_status = ? WHERE id = ?`. -/
def setJobStatus (s : DBState) (jobId : Nat) (newStatus : Status) : DBState :=
  { s with jobs := s.jobs.map (setStatusIf jobId newStatus) }

/-- `SELECT COUNT(*) FROM job_assignments WHERE job_id = ?`. -/
def countAssignmentsForJob (s : DBState) (jobId : Nat) : Nat :=
  (s.assignments.filter (fun a => a.job_id == jobId)).length

/-- Equality of `Except` values is decidable componentwise. -/
instance {ε α : Type} [DecidableEq ε] [DecidableEq α] : DecidableEq (Except ε α) := fun x y =>
  match x, y with
  | .ok a, .ok b =>
      if h : a = b then isTrue (by rw [h]) else isFalse (fun hh => by cases hh; exact h rfl)
  | .error a, .error b =>
      if h : a = b then isTrue (by rw [h]) else isFalse (fun hh => by cases hh; exact h rfl)
  | .ok _, .error _ => isFalse (fun hh => by cases hh)
  | .error _, .ok _ => isFalse (fun hh => by cases hh)

/-- Result of one operation: the committed state after the call and the
returned value or the thrown error. -/
structure OpOutcome (α : Type) where
  state : DBState
  result : Except Err α
deriving DecidableEq, Repr

/-- `JobStatusService.updateJobStatus`.  On success the second component
carries the created history record; the same-status no-op commits
without writing anything and carries `none`.  Every error path rolls the
transaction of this call back, leaving the state unchanged. -/
def updateJobStatus (s : DBState) (jobId : Nat) (newStatus : Status)
    (changedBy : Nat) (reason : Option String) : OpOutcome (Option StatusChange) :=
  match getJobById s jobId with
  | none => ⟨s, .error (.jobNotFound jobId)⟩
  | some job =>
      let currentStatus := job.current_status
      if currentStatus = newStatus then
        ⟨s, .ok none⟩
      else if ¬ ((ALLOWED_TRANSITIONS currentStatus).contains newStatus) then
        ⟨s, .error (.invalidTransition currentStatus newStatus)⟩
      else if newStatus = .in_progress ∧ countAssignmentsForJob s jobId = 0 then
        ⟨s, .error .missingAssignment⟩
      else
        let record : StatusChange := ⟨jobId, currentStatus, newStatus, changedBy, reason⟩
        let s1 := setJobStatus s jobId newStatus
        ⟨{ s1 with status_changes := s1.status_changes ++ [record] }, .ok (some record)⟩

/-- `JobAssignmentService.assignJobToVehicle`.  The job and vehicle
loads and the availability check read the committed state (they use the
shared pool, not the open transaction).  The delete-then-insert of the
assignment row happens on the open outer transaction; the status update
of step 5 runs `JobStatusService.updateJobStatus`, which opens its own
connection, reads the committed state and commits its own writes at
once.  `postFail` injects a storage failure in step 6 or at the outer
commit, after the inner status update has already committed: the outer
transaction rolls back but the status update does not. -/
def assignJobToVehicle (s : DBState) (job_id vehicle_id : Nat) (driver_id : Option Nat)
    (notes : Option String) (assigned_by : Nat) (postFail : Bool) : OpOutcome Assignment :=
  match getJobById s job_id with
  | none => ⟨s, .error (.jobNotFound job_id)⟩
  | some job =>
      if ¬ (job.current_status = .pending ∨ job.current_status = .assigned) then
        ⟨s, .error (.assignmentNotAllowed job.current_status)⟩
      else
        match getVehicleById s vehicle_id with
        | none => ⟨s, .error (.vehicleNotFound vehicle_id)⟩
        | some vehicle =>
            if vehicle.is_active = false then
              ⟨s, .error .vehicleInactive⟩
            else
              match checkVehicleAvailability s vehicle_id job.scheduled_date
                  job.scheduled_time_start job.scheduled_time_end (some job_id) with
              | .error e => ⟨s, .error (.availabilityCheckFailed e)⟩
              | .ok avail =>
                  if avail.isAvailable = false then
                    ⟨s, .error (.timeConflict avail.conflicts)⟩
                  else
                    let newRow : Assignment := ⟨job_id, vehicle_id, driver_id, notes, assigned_by⟩
                    let pendingRows :=
                      (s.assignments.filter (fun a => !(a.job_id == job_id))) ++ [newRow]
                    let upd := updateJobStatus s job_id .assigned assigned_by
                      (some ("Assigned to vehicle: " ++ vehicle.vehicle_name
                        ++ " (" ++ vehicle.license_plate ++ ")"))
                    match upd.result with
                    | .error e => ⟨s, .error e⟩
                    | .ok _ =>
                        if postFail then
                          ⟨upd.state, .error .storageFailure⟩
                        else
                          ⟨{ upd.state with assignments := pendingRows }, .ok newRow⟩

/-- `JobAssignmentService.unassignJob`.  Same connection discipline as
`assignJobToVehicle`: the row delete stays pending on the outer
transaction while the status update commits on its own connection. -/
def unassignJob (s : DBState) (jobId changedBy : Nat) (postFail : Bool) : OpOutcome Unit :=
  match getJobById s jobId with
  | none => ⟨s, .error (.jobNotFound jobId)⟩
  | some job =>
      if countAssignmentsForJob s jobId = 0 then
        ⟨s, .error .notAssigned⟩
      else if job.current_status = .in_progress then
        ⟨s, .error .cannotUnassignInProgress⟩
      else if job.current_status = .completed then
        ⟨s, .error .cannotUnassignCompleted⟩
      else
        let pendingRows := s.assignments.filter (fun a => !(a.job_id == jobId))
        let upd := updateJobStatus s jobId .pending changedBy
          (some "Vehicle unassigned. Job returned to pending status.")
        match upd.result with
        | .error e => ⟨s, .error e⟩
        | .ok _ =>
            if postFail then
              ⟨upd.state, .error .storageFailure⟩
            else
              ⟨{ upd.state with assignments := pendingRows }, .ok ()⟩

/-- One invocation of a core operation, with its arguments. -/
inductive Op
  | assign (job_id vehicle_id : Nat) (driver_id : Option Nat)
      (notes : Option String) (assigned_by : Nat)
  | unassign (jobId changedBy : Nat)
  | update (jobId : Nat) (newStatus : Status) (changedBy : Nat) (reason : Option String)
deriving DecidableEq, Repr

/-- The committed state after one core operation executed to completion
with no storage failure (a failed operation leaves the committed state
as it was). -/
def applyOp (s : DBState) : Op → DBState
  | .assign j v d n b => (assignJobToVehicle s j v d n b false).state
  | .unassign j b => (unassignJob s j b false).state
  | .update j st b r => (updateJobStatus s j st b r).state

/-- The committed state after a sequence of core operations executed one
at a time. -/
def runOps (s : DBState) : List Op → DBState
  | [] => s
  | op :: rest => runOps (applyOp s op) rest

/-- Two assignment rows describe a double booking: same vehicle, both
jobs present, same date, both statuses active, and the two half-open
windows overlap. -/
def activePairConflict (s : DBState) (a1 a2 : Assignment) : Bool :=
  a1.vehicle_id == a2.vehicle_id &&
    match getJobById s a1.job_id, getJobById s a2.job_id with
    | some j1, some j2 =>
        j1.scheduled_date == j2.scheduled_date
          && isActiveStatus j1.current_status
          && isActiveStatus j2.current_status
          && decide (j1.scheduled_time_start < j2.scheduled_time_end)
          && decide (j2.scheduled_time_start < j1.scheduled_time_end)
    | _, _ => false

/-- No two distinct assignment rows double-book a vehicle. -/
def noDoubleBooking (s : DBState) : Prop :=
  s.assignments.Pairwise (fun a1 a2 => activePairConflict s a1 a2 = false)

instance (s : DBState) : Decidable (noDoubleBooking s) :=
  List.instDecidablePairwise s.assignments

/-- The one update the code accepts that can silently revive a conflict:
reopening a cancelled job back to pending while an assignment row for it
still exists (cancellation never deletes the row). -/
def reopenWithRow (s : DBState) : Op → Bool
  | .update jobId newStatus _ _ =>
      (match getJobById s jobId with
       | some job => job.current_status == .cancelled
       | none => false)
        && newStatus == .pending
        && !(countAssignmentsForJob s jobId == 0)
  | _ => false

/-- States reachable by sequences of core operations none of which is a
reopen of a cancelled job that still holds an assignment row. -/
inductive GuardedReach : DBState → DBState → Prop
  | refl (s : DBState) : GuardedReach s s
  | step {s t : DBState} (op : Op) (h : GuardedReach s t)
      (hguard : reopenWithRow t op = false) : GuardedReach s (applyOp t op)

/-! Concrete states used by counterexamples and witnesses. -/

/-- An active vehicle. -/
def truckA : Vehicle := ⟨1, "Truck A", "ABC-123", true⟩

/-- Job 1: date 5, window 540 to 720 (09:00 to 12:00 in minutes), pending. -/
def jobOne : Job := ⟨1, 5, 540, 720, .pending⟩

/-- Job 2: date 5, window 600 to 840 (10:00 to 14:00 in minutes), pending. -/
def jobTwo : Job := ⟨2, 5, 600, 840, .pending⟩

/-- Base state: two pending jobs, one active vehicle, no assignments, no
history. -/
def baseState : DBState := ⟨0, [jobOne, jobTwo], [truckA], [], []⟩

/-- Job 1 assigned to vehicle 1. -/
def assignedState : DBState :=
  ⟨0, [⟨1, 5, 540, 720, .assigned⟩], [truckA], [⟨1, 1, none, none, 9⟩], []⟩

/-- Job 1 pending while still holding an assignment row (reachable: a
direct assigned-to-pending status update keeps the row). -/
def pendingWithRowState : DBState :=
  ⟨0, [jobOne], [truckA], [⟨1, 1, none, none, 9⟩], []⟩

/-- Job 1 completed, no assignments. -/
def completedStateC4 : DBState :=
  ⟨0, [⟨1, 5, 540, 720, .completed⟩], [truckA], [], []⟩

/-- One inactive vehicle, nothing else. -/
def inactiveVehicleState : DBState :=
  ⟨0, [], [⟨1, "Truck A", "ABC-123", false⟩], [], []⟩

/-- The conflict condition stated in the words of the claim: an
assignment of the requested vehicle whose job exists, lies on the
requested date, has a status outside completed and cancelled, is not the
excluded job, and whose half-open window overlaps the requested one. -/
def specConflict (s : DBState) (vehicleId date startTime endTime : Nat)
    (excludeJobId : Option Nat) (a : Assignment) (j : Job) : Prop :=
  getJobById s a.job_id = some j ∧
  a.vehicle_id = vehicleId ∧ j.scheduled_date = date ∧
  j.current_status ≠ .completed ∧ j.current_status ≠ .cancelled ∧
  (∀ k, excludeJobId = some k → j.id ≠ k) ∧
  startTime < j.scheduled_time_end ∧ endTime > j.scheduled_time_start

/-- Some assignment in the state satisfies the spec-side conflict
condition. -/
def specConflictExists (s : DBState) (vehicleId date startTime endTime : Nat)
    (excludeJobId : Option Nat) : Prop :=
  ∃ a ∈ s.assignments, ∃ j, specConflict s vehicleId date startTime endTime excludeJobId a j

/-! Helper lemmas about the sort and the conflict query. -/

theorem mem_insertByStart (x j : Job) (l : List Job) :
    x ∈ insertByStart j l ↔ x = j ∨ x ∈ l := by
  induction l with
  | nil => simp [insertByStart]
  | cons k rest ih =>
      by_cases h : j.scheduled_time_start ≤ k.scheduled_time_start
      · simp [insertByStart, h]
      · simp only [insertByStart, if_neg h, List.mem_cons, ih]
        tauto

theorem mem_sortByStart (x : Job) (l : List Job) : x ∈ sortByStart l ↔ x ∈ l := by
  induction l with
  | nil => simp [sortByStart]
  | cons j rest ih => simp [sortByStart, mem_insertByStart, ih]

theorem sortByStart_eq_nil_iff (l : List Job) : sortByStart l = [] ↔ l = [] := by
  rw [List.eq_nil_iff_forall_not_mem, List.eq_nil_iff_forall_not_mem]
  simp [mem_sortByStart]

theorem isActiveStatus_eq_true_iff (st : Status) :
    isActiveStatus st = true ↔ st ≠ .completed ∧ st ≠ .cancelled := by
  cases st <;> simp [isActiveStatus]

theorem excludedByJobId_eq_false_iff (ex : Option Nat) (i : Nat) (hex : ex ≠ some 0) :
    excludedByJobId ex i = false ↔ ∀ k, ex = some k → i ≠ k := by
  cases ex with
  | none => simp [excludedByJobId]
  | some k =>
      have hk : (k == 0) = false := by
        simp only [beq_eq_false_iff_ne, ne_eq]
        intro h
        exact hex (by rw [h])
      simp [excludedByJobId, hk]

theorem conflictRow_eq_some_iff (s : DBState) (vid date st en : Nat) (ex : Option Nat)
    (hex : ex ≠ some 0) (a : Assignment) (j : Job) :
    conflictRow s vid date st en ex a = some j ↔ specConflict s vid date st en ex a j := by
  by_cases hveh : a.vehicle_id = vid
  case neg =>
    have hb : (a.vehicle_id == vid) = false := by simpa using hveh
    simp [conflictRow, specConflict, hb, hveh]
  case pos =>
    have hb : (a.vehicle_id == vid) = true := by simpa using hveh
    cases hget : getJobById s a.job_id with
    | none => simp [conflictRow, specConflict, hb, hget]
    | some j0 =>
        simp only [conflictRow, specConflict, hb, if_true, hget]
        constructor
        · intro h
          rcases hc : (j0.scheduled_date == date && isActiveStatus j0.current_status
              && decide (st < j0.scheduled_time_end) && decide (en > j0.scheduled_time_start)
              && !(excludedByJobId ex j0.id)) with _ | _
          · rw [hc] at h
            simp at h
          · rw [hc] at h
            simp at h
            subst h
            simp only [Bool.and_eq_true, beq_iff_eq, decide_eq_true_eq,
              Bool.not_eq_true'] at hc
            obtain ⟨⟨⟨⟨hdt, hst⟩, h1⟩, h2⟩, hxc⟩ := hc
            rcases (isActiveStatus_eq_true_iff _).mp hst with ⟨hnc, hnx⟩
            exact ⟨rfl, hveh, hdt, hnc, hnx,
              (excludedByJobId_eq_false_iff ex _ hex).mp hxc, h1, h2⟩
        · rintro ⟨hj, -, hdt, hnc, hnx, hxc, h1, h2⟩
          injection hj with hj
          subst hj
          simp [hdt, (isActiveStatus_eq_true_iff _).mpr ⟨hnc, hnx⟩, h1, h2,
            (excludedByJobId_eq_false_iff ex _ hex).mpr hxc]

theorem conflictJobs_eq_nil_iff (s : DBState) (vid date st en : Nat) (ex : Option Nat)
    (hex : ex ≠ some 0) :
    conflictJobs s vid date st en ex = [] ↔ ¬ specConflictExists s vid date st en ex := by
  unfold conflictJobs specConflictExists
  rw [sortByStart_eq_nil_iff, List.filterMap_eq_nil_iff]
  constructor
  · rintro h ⟨a, ha, j, hspec⟩
    have hrow := (conflictRow_eq_some_iff s vid date st en ex hex a j).mpr hspec
    rw [h a ha] at hrow
    cases hrow
  · intro h a ha
    cases hrow : conflictRow s vid date st en ex a with
    | none => rfl
    | some j =>
        exact absurd ⟨a, ha, j, (conflictRow_eq_some_iff s vid date st en ex hex a j).mp hrow⟩ h

/-! Helper lemmas about the status update. -/

theorem setStatusIf_id (k : Nat) (st : Status) (j : Job) : (setStatusIf k st j).id = j.id := by
  unfold setStatusIf
  split <;> rfl

theorem getJobById_setJobStatus (s : DBState) (k : Nat) (st : Status) (i : Nat) :
    getJobById (setJobStatus s k st) i = (getJobById s i).map (setStatusIf k st) := by
  show (s.jobs.map (setStatusIf k st)).find? (fun j => j.id == i)
      = Option.map (setStatusIf k st) (s.jobs.find? (fun j => j.id == i))
  have hpred : ((fun j : Job => j.id == i) ∘ setStatusIf k st) = (fun j : Job => j.id == i) := by
    funext j
    simp [Function.comp, setStatusIf_id]
  rw [List.find?_map, hpred]

theorem getJobById_find_id (s : DBState) (i : Nat) (j : Job)
    (h : getJobById s i = some j) : j.id = i := by
  have := List.find?_some h
  simpa using this

theorem updateJobStatus_noop (s : DBState) (jobId : Nat) (job : Job) (cb : Nat)
    (r : Option String) (hj : getJobById s jobId = some job) :
    updateJobStatus s jobId job.current_status cb r = ⟨s, .ok none⟩ := by
  unfold updateJobStatus
  rw [hj]
  simp

theorem updateJobStatus_success_state (s : DBState) (jobId : Nat) (job : Job)
    (new : Status) (cb : Nat) (r : Option String)
    (hj : getJobById s jobId = some job) (hne : job.current_status ≠ new)
    (htab : (ALLOWED_TRANSITIONS job.current_status).contains new = true)
    (hrule : ¬ (new = .in_progress ∧ countAssignmentsForJob s jobId = 0)) :
    updateJobStatus s jobId new cb r
      = ⟨{ setJobStatus s jobId new with
            status_changes := s.status_changes ++ [⟨jobId, job.current_status, new, cb, r⟩] },
         .ok (some ⟨jobId, job.current_status, new, cb, r⟩)⟩ := by
  have hmem : new ∈ ALLOWED_TRANSITIONS job.current_status := List.elem_iff.mp htab
  unfold updateJobStatus
  rw [hj]
  simp [hne, htab, hrule, hmem, setJobStatus]

theorem updateJobStatus_assignments (s : DBState) (jobId : Nat) (new : Status)
    (cb : Nat) (r : Option String) :
    (updateJobStatus s jobId new cb r).state.assignments = s.assignments := by
  unfold updateJobStatus
  cases getJobById s jobId with
  | none => rfl
  | some job =>
      dsimp only
      split
      · rfl
      · split
        · rfl
        · split
          · rfl
          · simp [setJobStatus]

theorem contains_pending_of (st : Status) (hp : st ≠ .pending) (hip : st ≠ .in_progress)
    (hcomp : st ≠ .completed) : (ALLOWED_TRANSITIONS st).contains .pending = true := by
  cases st <;>
    first
      | decide
      | exact absurd rfl hp
      | exact absurd rfl hip
      | exact absurd rfl hcomp

/-! Helper lemmas about the orchestrator. -/

theorem assignJobToVehicle_assignments_cases (s : DBState) (j v : Nat) (d : Option Nat)
    (n : Option String) (b : Nat) (pf : Bool) :
    (assignJobToVehicle s j v d n b pf).state.assignments = s.assignments ∨
    (assignJobToVehicle s j v d n b pf).state.assignments
      = (s.assignments.filter (fun a => !(a.job_id == j))) ++ [⟨j, v, d, n, b⟩] := by
  unfold assignJobToVehicle
  dsimp only
  repeat' split
  all_goals
    first
      | exact Or.inl rfl
      | exact Or.inl (updateJobStatus_assignments _ _ _ _ _)
      | exact Or.inr rfl

theorem unassignJob_assignments_cases (s : DBState) (j b : Nat) (pf : Bool) :
    (unassignJob s j b pf).state.assignments = s.assignments ∨
    (unassignJob s j b pf).state.assignments
      = s.assignments.filter (fun a => !(a.job_id == j)) := by
  unfold unassignJob
  dsimp only
  repeat' split
  all_goals
    first
      | exact Or.inl rfl
      | exact Or.inl (updateJobStatus_assignments _ _ _ _ _)
      | exact Or.inr rfl

theorem nodup_filter_append_single (l : List Assignment) (j v : Nat) (d : Option Nat)
    (n : Option String) (b : Nat) (h : (l.map (fun a => a.job_id)).Nodup) :
    (((l.filter (fun a => !(a.job_id == j))) ++ [(⟨j, v, d, n, b⟩ : Assignment)]).map
        (fun a => a.job_id)).Nodup := by
  rw [List.map_append, List.nodup_append]
  refine ⟨List.Nodup.sublist (List.Sublist.map _ (List.filter_sublist l)) h, by simp, ?_⟩
  intro x hx
  simp only [List.mem_map, List.mem_filter] at hx
  obtain ⟨a, ⟨-, ha⟩, rfl⟩ := hx
  simp only [Bool.not_eq_true', beq_eq_false_iff_ne, ne_eq] at ha
  simp [ha]

theorem assignJobToVehicle_ok (s : DBState) (j v : Nat) (d : Option Nat) (n : Option String)
    (b : Nat) (row : Assignment)
    (h : (assignJobToVehicle s j v d n b false).result = .ok row) :
    row = ⟨j, v, d, n, b⟩ ∧
    (assignJobToVehicle s j v d n b false).state.assignments
      = (s.assignments.filter (fun a => !(a.job_id == j))) ++ [row] := by
  generalize hgen : assignJobToVehicle s j v d n b false = o at h ⊢
  unfold assignJobToVehicle at hgen
  dsimp only at hgen
  repeat' split at hgen
  all_goals subst hgen
  all_goals simp_all

theorem conflictJobs_excludes (s : DBState) (vid date st en jid : Nat) (jb : Job)
    (h0 : jid ≠ 0) (hm : jb ∈ conflictJobs s vid date st en (some jid)) : jb.id ≠ jid := by
  rw [conflictJobs, mem_sortByStart, List.mem_filterMap] at hm
  obtain ⟨a, -, ha⟩ := hm
  have hex : (some jid : Option Nat) ≠ some 0 := by
    intro hh
    injection hh with hh
    exact h0 hh
  have hspec := (conflictRow_eq_some_iff s vid date st en (some jid) hex a jb).mp ha
  exact hspec.2.2.2.2.2.1 jid rfl

/-! Helper lemmas for the no-double-booking invariant. -/

theorem setStatusIf_of_ne (k : Nat) (st : Status) (j : Job) (h : j.id ≠ k) :
    setStatusIf k st j = j := by
  unfold setStatusIf
  simp [h]

theorem setStatusIf_date (k : Nat) (st : Status) (j : Job) :
    (setStatusIf k st j).scheduled_date = j.scheduled_date := by
  unfold setStatusIf
  split <;> rfl

theorem setStatusIf_start (k : Nat) (st : Status) (j : Job) :
    (setStatusIf k st j).scheduled_time_start = j.scheduled_time_start := by
  unfold setStatusIf
  split <;> rfl

theorem setStatusIf_end (k : Nat) (st : Status) (j : Job) :
    (setStatusIf k st j).scheduled_time_end = j.scheduled_time_end := by
  unfold setStatusIf
  split <;> rfl

theorem setStatusIf_status (k : Nat) (st : Status) (j : Job) :
    (setStatusIf k st j).current_status
      = if j.id = k then st else j.current_status := by
  unfold setStatusIf
  by_cases h : j.id = k <;> simp [h]

theorem activePairConflict_eq_true_iff (s : DBState) (a1 a2 : Assignment) :
    activePairConflict s a1 a2 = true ↔
      a1.vehicle_id = a2.vehicle_id ∧
      ∃ j1 j2, getJobById s a1.job_id = some j1 ∧ getJobById s a2.job_id = some j2 ∧
        j1.scheduled_date = j2.scheduled_date ∧
        isActiveStatus j1.current_status = true ∧ isActiveStatus j2.current_status = true ∧
        j1.scheduled_time_start < j2.scheduled_time_end ∧
        j2.scheduled_time_start < j1.scheduled_time_end := by
  unfold activePairConflict
  cases hg1 : getJobById s a1.job_id with
  | none => simp [hg1]
  | some j1 =>
      cases hg2 : getJobById s a2.job_id with
      | none => simp [hg1, hg2]
      | some j2 =>
          simp [hg1, hg2, Bool.and_eq_true, and_assoc]

theorem activePairConflict_setStatus_of_ne (s : DBState) (k : Nat) (st : Status)
    (a1 a2 : Assignment) (h1 : a1.job_id ≠ k) (h2 : a2.job_id ≠ k) :
    activePairConflict (setJobStatus s k st) a1 a2 = activePairConflict s a1 a2 := by
  unfold activePairConflict
  rw [getJobById_setJobStatus, getJobById_setJobStatus]
  cases hg1 : getJobById s a1.job_id with
  | none => rfl
  | some j1 =>
      cases hg2 : getJobById s a2.job_id with
      | none => rfl
      | some j2 =>
          have e1 : setStatusIf k st j1 = j1 :=
            setStatusIf_of_ne k st j1 (by rw [getJobById_find_id s a1.job_id j1 hg1]; exact h1)
          have e2 : setStatusIf k st j2 = j2 :=
            setStatusIf_of_ne k st j2 (by rw [getJobById_find_id s a2.job_id j2 hg2]; exact h2)
          simp [e1, e2]

theorem updateJobStatus_state_cases (s : DBState) (k : Nat) (new : Status) (cb : Nat)
    (r : Option String) :
    (updateJobStatus s k new cb r).state = s ∨
    ∃ job, getJobById s k = some job ∧ job.current_status ≠ new ∧
      new ∈ ALLOWED_TRANSITIONS job.current_status ∧
      (updateJobStatus s k new cb r).state
        = { setJobStatus s k new with
            status_changes := s.status_changes
              ++ [(⟨k, job.current_status, new, cb, r⟩ : StatusChange)] } := by
  unfold updateJobStatus
  cases hj : getJobById s k with
  | none => exact Or.inl rfl
  | some job =>
      dsimp only
      split
      · exact Or.inl rfl
      · rename_i hne
        split
        · exact Or.inl rfl
        · rename_i htab
          rw [Classical.not_not] at htab
          split
          · exact Or.inl rfl
          · exact Or.inr ⟨job, rfl, hne, List.elem_iff.mp htab, rfl⟩

theorem active_after_set (s : DBState) (k : Nat) (new : Status) (job : Job)
    (hj : getJobById s k = some job)
    (htab : new ∈ ALLOWED_TRANSITIONS job.current_status)
    (hguard : ¬ (job.current_status = .cancelled ∧ new = .pending
      ∧ countAssignmentsForJob s k ≠ 0))
    (a : Assignment) (ha : a ∈ s.assignments) (j : Job)
    (hg : getJobById s a.job_id = some j)
    (hact : isActiveStatus ((setStatusIf k new j).current_status) = true) :
    isActiveStatus j.current_status = true := by
  rw [setStatusIf_status] at hact
  by_cases hk : j.id = k
  · rw [if_pos hk] at hact
    have hak : a.job_id = k := by
      rw [← getJobById_find_id s a.job_id j hg, hk]
    rw [hak, hj] at hg
    injection hg with hg
    subst hg
    by_contra hinact
    cases hstat : job.current_status with
    | pending => rw [hstat] at hinact; exact hinact rfl
    | assigned => rw [hstat] at hinact; exact hinact rfl
    | in_progress => rw [hstat] at hinact; exact hinact rfl
    | completed => rw [hstat] at htab; cases htab
    | cancelled =>
        rw [hstat] at htab
        have hpend : new = .pending := by
          cases htab with
          | head => rfl
          | tail _ hmem => cases hmem
        have hcnt : countAssignmentsForJob s k ≠ 0 := by
          unfold countAssignmentsForJob
          have hmem : a ∈ s.assignments.filter (fun x => x.job_id == k) :=
            List.mem_filter.mpr ⟨ha, by simp [hak]⟩
          intro hlen
          rw [List.length_eq_zero] at hlen
          rw [hlen] at hmem
          cases hmem
        exact hguard ⟨hstat, hpend, hcnt⟩
  · rwa [if_neg hk] at hact

theorem noDoubleBooking_setStatus (s : DBState) (k : Nat) (new : Status) (job : Job)
    (hj : getJobById s k = some job)
    (htab : new ∈ ALLOWED_TRANSITIONS job.current_status)
    (hguard : ¬ (job.current_status = .cancelled ∧ new = .pending
      ∧ countAssignmentsForJob s k ≠ 0))
    (h : noDoubleBooking s) :
    List.Pairwise (fun a1 a2 => activePairConflict (setJobStatus s k new) a1 a2 = false)
      s.assignments := by
  refine List.Pairwise.imp_of_mem ?_ h
  intro a1 a2 h1 h2 hcf
  by_contra hcne
  rw [Bool.not_eq_false, activePairConflict_eq_true_iff] at hcne
  obtain ⟨hveq, j1', j2', hg1', hg2', hdt, hact1, hact2, hov1, hov2⟩ := hcne
  rw [getJobById_setJobStatus] at hg1' hg2'
  cases hg1 : getJobById s a1.job_id with
  | none => rw [hg1] at hg1'; cases hg1'
  | some j1 =>
  cases hg2 : getJobById s a2.job_id with
  | none => rw [hg2] at hg2'; cases hg2'
  | some j2 =>
  rw [hg1, Option.map_some'] at hg1'
  rw [hg2, Option.map_some'] at hg2'
  injection hg1' with hg1'
  injection hg2' with hg2'
  subst hg1'
  subst hg2'
  rw [setStatusIf_date, setStatusIf_date] at hdt
  rw [setStatusIf_start, setStatusIf_end] at hov1
  rw [setStatusIf_start, setStatusIf_end] at hov2
  have ha1 := active_after_set s k new job hj htab hguard a1 h1 j1 hg1 hact1
  have ha2 := active_after_set s k new job hj htab hguard a2 h2 j2 hg2 hact2
  have : activePairConflict s a1 a2 = true :=
    (activePairConflict_eq_true_iff s a1 a2).mpr
      ⟨hveq, j1, j2, hg1, hg2, hdt, ha1, ha2, hov1, hov2⟩
  rw [hcf] at this
  cases this

theorem noDoubleBooking_update (s : DBState) (k : Nat) (new : Status) (cb : Nat)
    (r : Option String) (h : noDoubleBooking s)
    (hguard : reopenWithRow s (.update k new cb r) = false) :
    noDoubleBooking (updateJobStatus s k new cb r).state := by
  rcases updateJobStatus_state_cases s k new cb r with hc | ⟨job, hj, hne, htab, hc⟩
  · rw [hc]
    exact h
  · rw [hc]
    have hg : ¬ (job.current_status = .cancelled ∧ new = .pending
        ∧ countAssignmentsForJob s k ≠ 0) := by
      rintro ⟨hcanc, hpend, hcnt⟩
      rw [show reopenWithRow s (.update k new cb r)
          = ((match getJobById s k with
              | some job => job.current_status == .cancelled
              | none => false)
            && new == .pending && !(countAssignmentsForJob s k == 0)) from rfl, hj] at hguard
      simp [hcanc, hpend, hcnt] at hguard
    exact noDoubleBooking_setStatus s k new job hj htab hg h

theorem unassignJob_state_cases_false (s : DBState) (j b : Nat) :
    (unassignJob s j b false).state = s ∨
    (unassignJob s j b false).state
      = { (updateJobStatus s j .pending b
            (some "Vehicle unassigned. Job returned to pending status.")).state with
          assignments := s.assignments.filter (fun a => !(a.job_id == j)) } := by
  unfold unassignJob
  dsimp only
  repeat' split
  all_goals first | exact Or.inl rfl | exact Or.inr rfl | simp_all

theorem noDoubleBooking_unassign (s : DBState) (j b : Nat) (h : noDoubleBooking s) :
    noDoubleBooking (unassignJob s j b false).state := by
  rcases unassignJob_state_cases_false s j b with hc | hc
  · rw [hc]
    exact h
  · rw [hc]
    have hsub : List.Pairwise (fun a1 a2 => activePairConflict s a1 a2 = false)
        (s.assignments.filter (fun a => !(a.job_id == j))) :=
      List.Pairwise.sublist (List.filter_sublist s.assignments) h
    rcases updateJobStatus_state_cases s j .pending b
        (some "Vehicle unassigned. Job returned to pending status.") with hu | ⟨job, hj, hne, htab, hu⟩
    · rw [hu]
      exact hsub
    · rw [hu]
      refine List.Pairwise.imp_of_mem ?_ hsub
      intro a1 a2 h1 h2 hcf
      have hne1 : a1.job_id ≠ j := by
        have := (List.mem_filter.mp h1).2
        simpa using this
      have hne2 : a2.job_id ≠ j := by
        have := (List.mem_filter.mp h2).2
        simpa using this
      show activePairConflict (setJobStatus s j Status.pending) a1 a2 = false
      rw [activePairConflict_setStatus_of_ne s j .pending a1 a2 hne1 hne2]
      exact hcf

theorem checkVehicleAvailability_ok_true_all_none (s : DBState)
    (vid date st en : Nat) (ex : Option Nat) (avail : AvailabilityResult)
    (hok : checkVehicleAvailability s vid date st en ex = .ok avail)
    (htrue : avail.isAvailable = true) :
    ∀ a ∈ s.assignments, conflictRow s vid date st en ex a = none := by
  unfold checkVehicleAvailability at hok
  dsimp only at hok
  repeat' split at hok
  all_goals first
    | (injection hok; done)
    | (injection hok with hok; rw [← hok] at htrue; simp at htrue; done)
    | (rename_i hempty
       intro a ha
       have hnil : conflictJobs s vid date st en ex = [] := by
         rwa [← List.isEmpty_iff]
       rw [conflictJobs, sortByStart_eq_nil_iff, List.filterMap_eq_nil_iff] at hnil
       exact hnil a ha)

theorem assignJobToVehicle_state_cases_false (s : DBState) (j v : Nat) (d : Option Nat)
    (n : Option String) (b : Nat) :
    (assignJobToVehicle s j v d n b false).state = s ∨
    ∃ job avail reason,
      getJobById s j = some job ∧
      (job.current_status = .pending ∨ job.current_status = .assigned) ∧
      checkVehicleAvailability s v job.scheduled_date job.scheduled_time_start
          job.scheduled_time_end (some j) = .ok avail ∧
      avail.isAvailable = true ∧
      (assignJobToVehicle s j v d n b false).state
        = { (updateJobStatus s j .assigned b reason).state with
            assignments := (s.assignments.filter (fun a => !(a.job_id == j)))
              ++ [(⟨j, v, d, n, b⟩ : Assignment)] } := by
  unfold assignJobToVehicle
  cases hj : getJobById s j with
  | none => exact Or.inl rfl
  | some job =>
      dsimp only
      split
      · exact Or.inl rfl
      · rename_i hstat
        rw [Classical.not_not] at hstat
        cases hveh : getVehicleById s v with
        | none => exact Or.inl rfl
        | some vehicle =>
            dsimp only
            split
            · exact Or.inl rfl
            · cases hav : checkVehicleAvailability s v job.scheduled_date
                  job.scheduled_time_start job.scheduled_time_end (some j) with
              | error e => exact Or.inl rfl
              | ok avail =>
                  dsimp only
                  split
                  · exact Or.inl rfl
                  · rename_i hnotf
                    rw [Bool.not_eq_false] at hnotf
                    cases hres : (updateJobStatus s j .assigned b
                        (some ("Assigned to vehicle: " ++ vehicle.vehicle_name
                          ++ " (" ++ vehicle.license_plate ++ ")"))).result with
                    | error e => exact Or.inl rfl
                    | ok x =>
                        exact Or.inr ⟨job, avail,
                          some ("Assigned to vehicle: " ++ vehicle.vehicle_name
                            ++ " (" ++ vehicle.license_plate ++ ")"),
                          rfl, hstat, hav, hnotf, rfl⟩

theorem noDoubleBooking_insert_core (s u : DBState) (j v : Nat) (d : Option Nat)
    (n : Option String) (b : Nat) (job jA : Job)
    (hallnone : ∀ a ∈ s.assignments,
      conflictRow s v job.scheduled_date job.scheduled_time_start
        job.scheduled_time_end (some j) a = none)
    (hsame : ∀ i, i ≠ j → getJobById u i = getJobById s i)
    (hjA : getJobById u j = some jA)
    (hdA : jA.scheduled_date = job.scheduled_date)
    (hsA : jA.scheduled_time_start = job.scheduled_time_start)
    (heA : jA.scheduled_time_end = job.scheduled_time_end)
    (h : noDoubleBooking s) :
    List.Pairwise (fun a1 a2 => activePairConflict u a1 a2 = false)
      ((s.assignments.filter (fun a => !(a.job_id == j)))
        ++ [(⟨j, v, d, n, b⟩ : Assignment)]) := by
  rw [List.pairwise_append]
  refine ⟨?_, List.pairwise_singleton _ _, ?_⟩
  · have hsub : List.Pairwise (fun a1 a2 => activePairConflict s a1 a2 = false)
        (s.assignments.filter (fun a => !(a.job_id == j))) :=
      List.Pairwise.sublist (List.filter_sublist s.assignments) h
    refine List.Pairwise.imp_of_mem ?_ hsub
    intro a1 a2 h1 h2 hcf
    have hne1 : a1.job_id ≠ j := by
      have := (List.mem_filter.mp h1).2
      simpa using this
    have hne2 : a2.job_id ≠ j := by
      have := (List.mem_filter.mp h2).2
      simpa using this
    unfold activePairConflict at hcf ⊢
    rw [hsame a1.job_id hne1, hsame a2.job_id hne2]
    exact hcf
  · intro a1 h1 x hx
    rw [List.mem_singleton] at hx
    subst hx
    have hne1 : a1.job_id ≠ j := by
      have := (List.mem_filter.mp h1).2
      simpa using this
    have ha1mem : a1 ∈ s.assignments := (List.mem_filter.mp h1).1
    by_contra hcne
    rw [Bool.not_eq_false, activePairConflict_eq_true_iff] at hcne
    obtain ⟨hveq, j1u, j2u, hg1u, hg2u, hdt, hact1, hact2, hov1, hov2⟩ := hcne
    dsimp only at hveq hg2u
    rw [hsame a1.job_id hne1] at hg1u
    rw [hjA] at hg2u
    injection hg2u with hg2u
    subst hg2u
    have hid1 : j1u.id = a1.job_id := getJobById_find_id s a1.job_id j1u hg1u
    have hrow : conflictRow s v job.scheduled_date job.scheduled_time_start
        job.scheduled_time_end (some j) a1 = some j1u := by
      unfold conflictRow
      have hvb : (a1.vehicle_id == v) = true := by
        simp [hveq]
      rw [hvb, hg1u]
      have hcond : (j1u.scheduled_date == job.scheduled_date
          && isActiveStatus j1u.current_status
          && decide (job.scheduled_time_start < j1u.scheduled_time_end)
          && decide (job.scheduled_time_end > j1u.scheduled_time_start)
          && !(excludedByJobId (some j) j1u.id)) = true := by
        have hd1 : j1u.scheduled_date = job.scheduled_date := by
          rw [hdt, hdA]
        have ho1 : job.scheduled_time_start < j1u.scheduled_time_end := by
          rw [← hsA]
          exact hov2
        have ho2 : job.scheduled_time_end > j1u.scheduled_time_start := by
          rw [← heA]
          exact hov1
        have hexcl : excludedByJobId (some j) j1u.id = false := by
          unfold excludedByJobId
          dsimp only
          cases hj0 : (j == 0) with
          | true => simp [hj0]
          | false => simp [hj0, hid1, hne1]
        simp [hd1, hact1, ho1, ho2, hexcl]
      simp [hcond]
    rw [hallnone a1 ha1mem] at hrow
    cases hrow

theorem noDoubleBooking_assign (s : DBState) (j v : Nat) (d : Option Nat) (n : Option String)
    (b : Nat) (h : noDoubleBooking s) :
    noDoubleBooking (assignJobToVehicle s j v d n b false).state := by
  rcases assignJobToVehicle_state_cases_false s j v d n b with
    hc | ⟨job, avail, reason, hj, hstat, hav, htrue, hc⟩
  · rw [hc]
    exact h
  · rw [hc]
    have hallnone := checkVehicleAvailability_ok_true_all_none s v job.scheduled_date
      job.scheduled_time_start job.scheduled_time_end (some j) avail hav htrue
    rcases updateJobStatus_state_cases s j .assigned b reason with
      hu | ⟨job2, hj2, hne2, htab2, hu⟩
    · rw [hu]
      exact noDoubleBooking_insert_core s _ j v d n b job job hallnone
        (fun i _ => rfl) hj rfl rfl rfl h
    · rw [hu]
      refine noDoubleBooking_insert_core s _ j v d n b job
        (setStatusIf j Status.assigned job) hallnone ?_ ?_
        (setStatusIf_date j .assigned job) (setStatusIf_start j .assigned job)
        (setStatusIf_end j .assigned job) h
      · intro i hne
        show getJobById (setJobStatus s j Status.assigned) i = getJobById s i
        rw [getJobById_setJobStatus]
        cases hg : getJobById s i with
        | none => rfl
        | some jj =>
            rw [Option.map_some', setStatusIf_of_ne j .assigned jj
              (by rw [getJobById_find_id s i jj hg]; exact hne)]
      · show getJobById (setJobStatus s j Status.assigned) j
            = some (setStatusIf j Status.assigned job)
        rw [getJobById_setJobStatus, hj, Option.map_some']

theorem noDoubleBooking_applyOp (t : DBState) (op : Op) (h : noDoubleBooking t)
    (hguard : reopenWithRow t op = false) : noDoubleBooking (applyOp t op) := by
  cases op with
  | assign j v d n b => exact noDoubleBooking_assign t j v d n b h
  | unassign j b => exact noDoubleBooking_unassign t j b h
  | update j st b r => exact noDoubleBooking_update t j st b r h hguard

/-! Claim theorems. -/

/-- Claim C3: for well-formed inputs on an existing active vehicle,
`checkVehicleAvailability` returns a normal result whose `isAvailable`
field is true exactly when no assignment satisfies the half-open overlap
condition of the claim; touching endpoints therefore never conflict. -/
theorem claim_C3_overlap_definition (s : DBState) (vid date st en : Nat) (ex : Option Nat)
    (v : Vehicle) (h0 : vid ≠ 0) (hw : st < en) (hd : s.today ≤ date)
    (hv : getVehicleById s vid = some v) (hact : v.is_active = true) (hex : ex ≠ some 0) :
    ∃ r, checkVehicleAvailability s vid date st en ex = .ok r ∧
      (r.isAvailable = true ↔ ¬ specConflictExists s vid date st en ex) := by
  have h0b : (vid == 0) = false := by simpa using h0
  have hwb : ¬ en ≤ st := by omega
  have hdb : ¬ date < s.today := by omega
  have hactb : ¬ v.is_active = false := by simp [hact]
  unfold checkVehicleAvailability
  simp only [h0b, Bool.false_eq_true, if_false, hwb, hdb, hv, hactb]
  by_cases hemp : conflictJobs s vid date st en ex = []
  · have hempb : (conflictJobs s vid date st en ex).isEmpty = true := by simp [hemp]
    rw [if_pos hempb]
    exact ⟨_, rfl, by simpa using (conflictJobs_eq_nil_iff s vid date st en ex hex).mp hemp⟩
  · have hempb : ¬ (conflictJobs s vid date st en ex).isEmpty = true := by simp [hemp]
    rw [if_neg hempb]
    refine ⟨_, rfl, ?_⟩
    simp only [Bool.false_eq_true, false_iff, not_not]
    by_contra hno
    exact hemp ((conflictJobs_eq_nil_iff s vid date st en ex hex).mpr hno)

/-- Claim C3, witness: in the state with job 1 assigned to vehicle 1 on
date 5 over the window 540 to 720, the requested window 700 to 800
overlaps it. -/
theorem claim_C3_witness :
    ∃ r, checkVehicleAvailability assignedState 1 5 700 800 none = .ok r ∧
      (r.isAvailable = true ↔ ¬ specConflictExists assignedState 1 5 700 800 none) :=
  claim_C3_overlap_definition assignedState 1 5 700 800 none truckA
    (by decide) (by decide) (by decide) (by decide) (by decide) (by decide)

/-- Claim C2: the claim states that any failure at any step of
`assignJobToVehicle` leaves the state identical to the pre-call state.
The code violates this: the step-5 status update runs on its own
connection and commits immediately, so a storage failure in step 6 or at
the outer commit rolls back only the assignment-row writes.  At the
failing input below (pending job 1, free active vehicle 1, failure after
the insert) the call errors yet the post state differs from the pre
state: the job status is `assigned` and one history record exists while
no assignment row does. -/
theorem claim_C2_partial_state_after_late_failure :
    (assignJobToVehicle baseState 1 1 none none 9 true).result = .error .storageFailure ∧
    (assignJobToVehicle baseState 1 1 none none 9 true).state ≠ baseState ∧
    (assignJobToVehicle baseState 1 1 none none 9 true).state.assignments = [] ∧
    (getJobById (assignJobToVehicle baseState 1 1 none none 9 true).state 1).map
        (fun j => j.current_status) = some .assigned ∧
    (assignJobToVehicle baseState 1 1 none none 9 true).state.status_changes.length = 1 := by
  decide

/-- Claim C5, counterexample: `updateJobStatus` to `in_progress` on a
pending job with no assignment fails with `InvalidTransition` (the pair
pending to in_progress is not in the table, so validation stops before
the assignment guard), not with `MissingAssignment` as the claim
states. -/
theorem claim_C5_counterexample :
    (updateJobStatus baseState 1 .in_progress 9 none).result
        = .error (.invalidTransition .pending .in_progress) ∧
    ¬ (updateJobStatus baseState 1 .in_progress 9 none).result
        = .error .missingAssignment := by
  decide

/-- Claim C5, amended: on any pending job the call fails with
`InvalidTransition` (regardless of whether an assignment exists) and
changes nothing; in the concrete Scenario B state, assigning a vehicle
and then repeating the call succeeds, and across the two calls exactly
two history records are produced, pending to assigned then assigned to
in_progress. -/
theorem claim_C5_amended (s : DBState) (jobId : Nat) (job : Job) (cb : Nat) (r : Option String)
    (hj : getJobById s jobId = some job) (hp : job.current_status = .pending) :
    updateJobStatus s jobId .in_progress cb r
        = ⟨s, .error (.invalidTransition .pending .in_progress)⟩ ∧
    (assignJobToVehicle baseState 1 1 none none 9 false).result = .ok ⟨1, 1, none, none, 9⟩ ∧
    (updateJobStatus (assignJobToVehicle baseState 1 1 none none 9 false).state
        1 .in_progress 9 none).result
      = .ok (some ⟨1, .assigned, .in_progress, 9, none⟩) ∧
    (updateJobStatus (assignJobToVehicle baseState 1 1 none none 9 false).state
        1 .in_progress 9 none).state.status_changes.map
          (fun c => (c.old_status, c.new_status))
      = [(.pending, .assigned), (.assigned, .in_progress)] := by
  refine ⟨?_, by decide, by decide, by decide⟩
  unfold updateJobStatus
  rw [hj]
  simp [hp, ALLOWED_TRANSITIONS]

/-- Claim C5, witness for the amended theorem. -/
theorem claim_C5_amended_witness :
    updateJobStatus baseState 1 .in_progress 9 none
        = ⟨baseState, .error (.invalidTransition .pending .in_progress)⟩ ∧
    (assignJobToVehicle baseState 1 1 none none 9 false).result = .ok ⟨1, 1, none, none, 9⟩ ∧
    (updateJobStatus (assignJobToVehicle baseState 1 1 none none 9 false).state
        1 .in_progress 9 none).result
      = .ok (some ⟨1, .assigned, .in_progress, 9, none⟩) ∧
    (updateJobStatus (assignJobToVehicle baseState 1 1 none none 9 false).state
        1 .in_progress 9 none).state.status_changes.map
          (fun c => (c.old_status, c.new_status))
      = [(.pending, .assigned), (.assigned, .in_progress)] :=
  claim_C5_amended baseState 1 jobOne 9 none (by decide) (by decide)

/-- Claim C6, counterexample: a direct assigned-to-pending status update
that does not come from the unassign operation (its reason does not even
mention unassignment) succeeds: the guard in the source only logs a
console warning.  The claim states that such a call is rejected. -/
theorem claim_C6_counterexample :
    (updateJobStatus assignedState 1 .pending 9 (some "manual move by dispatcher")).result
        = .ok (some ⟨1, .assigned, .pending, 9, some "manual move by dispatcher"⟩) ∧
    (getJobById (updateJobStatus assignedState 1 .pending 9
        (some "manual move by dispatcher")).state 1).map (fun j => j.current_status)
      = some .pending := by
  decide

/-- Claim C6, amended: an assigned-to-pending update succeeds whatever
its originating context or reason text; the table permits it
unconditionally and the non-unassignment case only triggers a console
warning, never a rejection. -/
theorem claim_C6_amended (s : DBState) (jobId : Nat) (job : Job) (cb : Nat)
    (reason : Option String) (hj : getJobById s jobId = some job)
    (ha : job.current_status = .assigned) :
    (updateJobStatus s jobId .pending cb reason).result
        = .ok (some ⟨jobId, .assigned, .pending, cb, reason⟩) ∧
    (updateJobStatus s jobId .pending cb reason).state.status_changes
        = s.status_changes ++ [⟨jobId, .assigned, .pending, cb, reason⟩] := by
  unfold updateJobStatus
  rw [hj]
  simp [ha, ALLOWED_TRANSITIONS, setJobStatus]

/-- Claim C6, witness for the amended theorem. -/
theorem claim_C6_amended_witness :
    (updateJobStatus assignedState 1 .pending 9 (some "weekly replanning")).result
        = .ok (some ⟨1, .assigned, .pending, 9, some "weekly replanning"⟩) ∧
    (updateJobStatus assignedState 1 .pending 9 (some "weekly replanning")).state.status_changes
        = assignedState.status_changes
            ++ [⟨1, .assigned, .pending, 9, some "weekly replanning"⟩] :=
  claim_C6_amended assignedState 1 ⟨1, 5, 540, 720, .assigned⟩ 9
    (some "weekly replanning") (by decide) (by decide)

/-- Claim C8: a same-status update is a no-op success, leaving the state
(and in particular the history) unchanged, and `canTransitionTo` holds
reflexively for every status. -/
theorem claim_C8_idempotent_same_status :
    (∀ (s : DBState) (jobId : Nat) (job : Job) (cb : Nat) (r : Option String),
        getJobById s jobId = some job →
        updateJobStatus s jobId job.current_status cb r = ⟨s, .ok none⟩) ∧
    (∀ st : Status, canTransitionTo st st = true) := by
  constructor
  · intro s jobId job cb r hj
    unfold updateJobStatus
    rw [hj]
    simp
  · intro st
    simp [canTransitionTo]

/-- Claim C8, witness. -/
theorem claim_C8_witness :
    updateJobStatus baseState 1 Status.pending 9 none = ⟨baseState, .ok none⟩ ∧
    canTransitionTo .completed .completed = true :=
  ⟨claim_C8_idempotent_same_status.1 baseState 1 jobOne 9 none (by decide),
   claim_C8_idempotent_same_status.2 .completed⟩

/-- Claim C4: for a job whose status differs from the target,
`updateJobStatus` fails with `InvalidTransition` exactly when the target
is not in the transition-table row of the current status; from
`completed` (whose row is empty) every such call fails that way and
leaves the state untouched. -/
theorem claim_C4_transition_table (s : DBState) (jobId : Nat) (job : Job) (tgt : Status)
    (cb : Nat) (r : Option String) (hj : getJobById s jobId = some job)
    (hne : job.current_status ≠ tgt) :
    ((updateJobStatus s jobId tgt cb r).result
        = .error (.invalidTransition job.current_status tgt)
      ↔ tgt ∉ ALLOWED_TRANSITIONS job.current_status) ∧
    (job.current_status = .completed →
      updateJobStatus s jobId tgt cb r = ⟨s, .error (.invalidTransition .completed tgt)⟩) := by
  constructor
  · unfold updateJobStatus
    rw [hj]
    by_cases hmem : tgt ∈ ALLOWED_TRANSITIONS job.current_status
    · have hc : (ALLOWED_TRANSITIONS job.current_status).contains tgt = true :=
        List.elem_iff.mpr hmem
      simp only [hne, if_false, hc, not_true, if_neg, Bool.true_eq_false]
      simp [hmem]
      split <;> simp
    · have hc : (ALLOWED_TRANSITIONS job.current_status).contains tgt = false := by
        rcases hb : (ALLOWED_TRANSITIONS job.current_status).contains tgt
        · rfl
        · exact absurd (List.elem_iff.mp hb) hmem
      simp [hne, hc, hmem]
  · intro hcomp
    unfold updateJobStatus
    rw [hj]
    rw [hcomp] at hne
    simp [hcomp, hne, ALLOWED_TRANSITIONS]

/-- Claim C4, witness. -/
theorem claim_C4_witness :
    (((updateJobStatus completedStateC4 1 .cancelled 9 none).result
        = .error (.invalidTransition .completed .cancelled))
      ↔ .cancelled ∉ ALLOWED_TRANSITIONS .completed) ∧
    updateJobStatus completedStateC4 1 .cancelled 9 none
        = ⟨completedStateC4, .error (.invalidTransition .completed .cancelled)⟩ := by
  have h := claim_C4_transition_table completedStateC4 1 ⟨1, 5, 540, 720, .completed⟩
    .cancelled 9 none (by decide) (by decide)
  exact ⟨h.1, h.2 rfl⟩

/-- Claim C10: with well-formed inputs, a missing vehicle and an
inactive vehicle both yield a normal `ok` result, not an error, with
`isAvailable := false` and an empty conflict list; only the free-text
message tells the cases apart. -/
theorem claim_C10_invalid_vehicle_normal_result (s : DBState)
    (vehicleId date startTime endTime : Nat) (ex : Option Nat)
    (h0 : vehicleId ≠ 0) (hw : startTime < endTime) (hd : s.today ≤ date) :
    (getVehicleById s vehicleId = none →
      checkVehicleAvailability s vehicleId date startTime endTime ex
        = .ok ⟨false, [], "Vehicle with ID " ++ toString vehicleId ++ " does not exist"⟩) ∧
    (∀ v : Vehicle, getVehicleById s vehicleId = some v → v.is_active = false →
      checkVehicleAvailability s vehicleId date startTime endTime ex
        = .ok ⟨false, [],
            "Vehicle \"" ++ v.vehicle_name ++ "\" is currently inactive (out of service)"⟩) := by
  have h0b : (vehicleId == 0) = false := by simpa using h0
  have hwb : ¬ endTime ≤ startTime := by omega
  have hdb : ¬ date < s.today := by omega
  constructor
  · intro hv
    unfold checkVehicleAvailability
    simp [h0b, hwb, hdb, hv]
  · intro v hv hact
    unfold checkVehicleAvailability
    simp [h0b, hwb, hdb, hv, hact]

/-- Claim C10, witness: vehicle 7 does not exist in the base state, and
vehicle 1 of the inactive-vehicle state is out of service. -/
theorem claim_C10_witness :
    checkVehicleAvailability baseState 7 5 600 700 none
        = .ok ⟨false, [], "Vehicle with ID " ++ toString 7 ++ " does not exist"⟩ ∧
    checkVehicleAvailability inactiveVehicleState 1 5 600 700 none
        = .ok ⟨false, [],
            "Vehicle \"" ++ "Truck A" ++ "\" is currently inactive (out of service)"⟩ :=
  ⟨(claim_C10_invalid_vehicle_normal_result baseState 7 5 600 700 none
      (by decide) (by decide) (by decide)).1 (by decide),
   (claim_C10_invalid_vehicle_normal_result inactiveVehicleState 1 5 600 700 none
      (by decide) (by decide) (by decide)).2 ⟨1, "Truck A", "ABC-123", false⟩
      (by decide) (by decide)⟩

/-- Claim C9, counterexample: on a pending job that still holds an
assignment row, `unassignJob` succeeds and deletes the row, but the
status is already pending, so the inner update is a no-op and no history
record is written — the claim states that the change is recorded in the
status history. -/
theorem claim_C9_counterexample :
    (unassignJob pendingWithRowState 1 9 false).result = .ok () ∧
    (unassignJob pendingWithRowState 1 9 false).state.assignments = [] ∧
    (unassignJob pendingWithRowState 1 9 false).state.status_changes = [] := by
  decide

/-- Claim C9, amended: `unassignJob` fails with `NotAssigned` when the
job has no assignment row and with the two `CannotUnassign` errors for
in_progress and completed jobs, leaving the state unchanged; otherwise
(absent storage failures, see the C2 connection bug) it deletes the
assignment rows of the job and ensures its status is pending — but it
writes a history record only when the status actually changes, none when
the job was already pending. -/
theorem claim_C9_unassign_contract (s : DBState) (jobId : Nat) (job : Job) (cb : Nat)
    (hj : getJobById s jobId = some job) :
    (countAssignmentsForJob s jobId = 0 →
        unassignJob s jobId cb false = ⟨s, .error .notAssigned⟩) ∧
    (countAssignmentsForJob s jobId ≠ 0 → job.current_status = .in_progress →
        unassignJob s jobId cb false = ⟨s, .error .cannotUnassignInProgress⟩) ∧
    (countAssignmentsForJob s jobId ≠ 0 → job.current_status = .completed →
        unassignJob s jobId cb false = ⟨s, .error .cannotUnassignCompleted⟩) ∧
    (countAssignmentsForJob s jobId ≠ 0 → job.current_status ≠ .in_progress →
      job.current_status ≠ .completed →
        (unassignJob s jobId cb false).result = .ok () ∧
        (unassignJob s jobId cb false).state.assignments
          = s.assignments.filter (fun a => !(a.job_id == jobId)) ∧
        (getJobById (unassignJob s jobId cb false).state jobId).map
            (fun j => j.current_status) = some .pending ∧
        (unassignJob s jobId cb false).state.status_changes
          = (if job.current_status = .pending then s.status_changes
             else s.status_changes
               ++ [⟨jobId, job.current_status, .pending, cb,
                    some "Vehicle unassigned. Job returned to pending status."⟩])) := by
  refine ⟨?_, ?_, ?_, ?_⟩
  · intro h0
    unfold unassignJob
    rw [hj]
    simp [h0]
  · intro hcnt hip
    unfold unassignJob
    rw [hj]
    simp [hcnt, hip]
  · intro hcnt hcomp
    unfold unassignJob
    rw [hj]
    simp [hcnt, hcomp]
  · intro hcnt hip hcomp
    by_cases hp : job.current_status = .pending
    · have hnoop := updateJobStatus_noop s jobId job cb
        (some "Vehicle unassigned. Job returned to pending status.") hj
      rw [hp] at hnoop
      have heval : unassignJob s jobId cb false
          = ⟨{ s with assignments := s.assignments.filter (fun a => !(a.job_id == jobId)) },
             .ok ()⟩ := by
        unfold unassignJob
        simp only [hj]
        rw [if_neg hcnt, if_neg hip, if_neg hcomp]
        simp only [hnoop]
        rfl
      rw [heval]
      refine ⟨rfl, rfl, ?_, by simp [hp]⟩
      have hju : getJobById
          { s with assignments := s.assignments.filter (fun a => !(a.job_id == jobId)) } jobId
          = getJobById s jobId := rfl
      rw [hju, hj]
      simp [hp]
    · have htab := contains_pending_of job.current_status hp hip hcomp
      have hsucc := updateJobStatus_success_state s jobId job .pending cb
        (some "Vehicle unassigned. Job returned to pending status.") hj hp htab (by simp)
      have heval : unassignJob s jobId cb false
          = ⟨{ { setJobStatus s jobId .pending with
                  status_changes := s.status_changes
                    ++ [(⟨jobId, job.current_status, .pending, cb,
                        some "Vehicle unassigned. Job returned to pending status."⟩
                          : StatusChange)] } with
                assignments := s.assignments.filter (fun a => !(a.job_id == jobId)) },
             .ok ()⟩ := by
        unfold unassignJob
        simp only [hj]
        rw [if_neg hcnt, if_neg hip, if_neg hcomp]
        simp only [hsucc]
        rfl
      rw [heval]
      refine ⟨rfl, rfl, ?_, by simp [hp]⟩
      have hju : getJobById { { setJobStatus s jobId .pending with
          status_changes := s.status_changes
            ++ [(⟨jobId, job.current_status, .pending, cb,
                some "Vehicle unassigned. Job returned to pending status."⟩
                  : StatusChange)] } with
          assignments := s.assignments.filter (fun a => !(a.job_id == jobId)) } jobId
          = getJobById (setJobStatus s jobId .pending) jobId := rfl
      rw [hju, getJobById_setJobStatus, hj]
      simp [setStatusIf, getJobById_find_id s jobId job hj]

/-- Claim C9, witness for the amended theorem: unassigning the assigned
job 1 deletes its row, sets it pending and appends one history
record. -/
theorem claim_C9_unassign_contract_witness :
    (unassignJob assignedState 1 9 false).result = .ok () ∧
    (unassignJob assignedState 1 9 false).state.assignments
      = assignedState.assignments.filter (fun a => !(a.job_id == 1)) ∧
    (getJobById (unassignJob assignedState 1 9 false).state 1).map
        (fun j => j.current_status) = some .pending ∧
    (unassignJob assignedState 1 9 false).state.status_changes
      = (if (⟨1, 5, 540, 720, .assigned⟩ : Job).current_status = .pending
         then assignedState.status_changes
         else assignedState.status_changes
           ++ [⟨1, (⟨1, 5, 540, 720, .assigned⟩ : Job).current_status, .pending, 9,
                some "Vehicle unassigned. Job returned to pending status."⟩]) :=
  (claim_C9_unassign_contract assignedState 1 ⟨1, 5, 540, 720, .assigned⟩ 9
    (by decide)).2.2.2 (by decide) (by decide) (by decide)

/-- Claim C7: each of the three core operations preserves the invariant
that at most one assignment row exists per job (no duplicate job ids
among the rows); a successful assignment returns exactly the inserted
row, and the rows for that job afterwards are exactly that single row
(delete then insert, never two rows); and the conflict set computed with
an exclusion never contains the excluded job, so a job never conflicts
with itself during reassignment. -/
theorem claim_C7_one_assignment_per_job :
    (∀ (s : DBState) (j v : Nat) (d : Option Nat) (n : Option String) (b : Nat) (pf : Bool),
        (s.assignments.map (fun a => a.job_id)).Nodup →
        ((assignJobToVehicle s j v d n b pf).state.assignments.map (fun a => a.job_id)).Nodup) ∧
    (∀ (s : DBState) (j b : Nat) (pf : Bool),
        (s.assignments.map (fun a => a.job_id)).Nodup →
        ((unassignJob s j b pf).state.assignments.map (fun a => a.job_id)).Nodup) ∧
    (∀ (s : DBState) (j : Nat) (st : Status) (b : Nat) (r : Option String),
        (s.assignments.map (fun a => a.job_id)).Nodup →
        ((updateJobStatus s j st b r).state.assignments.map (fun a => a.job_id)).Nodup) ∧
    (∀ (s : DBState) (j v : Nat) (d : Option Nat) (n : Option String) (b : Nat)
        (row : Assignment),
        (assignJobToVehicle s j v d n b false).result = .ok row →
        row = ⟨j, v, d, n, b⟩ ∧
        (assignJobToVehicle s j v d n b false).state.assignments.filter
            (fun a => a.job_id == j) = [row]) ∧
    (∀ (s : DBState) (vid date st en jid : Nat) (jb : Job),
        jid ≠ 0 → jb ∈ conflictJobs s vid date st en (some jid) → jb.id ≠ jid) := by
  refine ⟨?_, ?_, ?_, ?_, ?_⟩
  · intro s j v d n b pf h
    rcases assignJobToVehicle_assignments_cases s j v d n b pf with hc | hc
    · rw [hc]
      exact h
    · rw [hc]
      exact nodup_filter_append_single s.assignments j v d n b h
  · intro s j b pf h
    rcases unassignJob_assignments_cases s j b pf with hc | hc
    · rw [hc]
      exact h
    · rw [hc]
      exact List.Nodup.sublist (List.Sublist.map _ (List.filter_sublist s.assignments)) h
  · intro s j st b r h
    rw [updateJobStatus_assignments]
    exact h
  · intro s j v d n b row hok
    obtain ⟨hrow, hassign⟩ := assignJobToVehicle_ok s j v d n b row hok
    refine ⟨hrow, ?_⟩
    rw [hassign, List.filter_append]
    have h1 : (s.assignments.filter (fun a => !(a.job_id == j))).filter
        (fun a => a.job_id == j) = [] := by
      rw [List.filter_filter]
      rw [List.filter_eq_nil_iff]
      intro a _
      cases hb : (a.job_id == j) <;> simp [hb]
    have h2 : [row].filter (fun a => a.job_id == j) = [row] := by
      rw [hrow]
      simp
    rw [h1, h2, List.nil_append]
  · exact fun s vid date st en jid jb h0 hm => conflictJobs_excludes s vid date st en jid jb h0 hm

/-- Claim C7, witness: instantiations of all five parts on concrete
states. -/
theorem claim_C7_witness :
    ((assignJobToVehicle baseState 1 1 none none 9 false).state.assignments.map
        (fun a => a.job_id)).Nodup ∧
    ((unassignJob assignedState 1 9 false).state.assignments.map (fun a => a.job_id)).Nodup ∧
    ((updateJobStatus assignedState 1 .cancelled 9 none).state.assignments.map
        (fun a => a.job_id)).Nodup ∧
    ((⟨1, 1, none, none, 9⟩ : Assignment) = ⟨1, 1, none, none, 9⟩ ∧
      (assignJobToVehicle baseState 1 1 none none 9 false).state.assignments.filter
          (fun a => a.job_id == 1) = [⟨1, 1, none, none, 9⟩]) ∧
    (⟨1, 5, 540, 720, .assigned⟩ : Job).id ≠ 2 :=
  ⟨claim_C7_one_assignment_per_job.1 baseState 1 1 none none 9 false (by decide),
   claim_C7_one_assignment_per_job.2.1 assignedState 1 9 false (by decide),
   claim_C7_one_assignment_per_job.2.2.1 assignedState 1 .cancelled 9 none (by decide),
   claim_C7_one_assignment_per_job.2.2.2.1 baseState 1 1 none none 9
     ⟨1, 1, none, none, 9⟩ (by decide),
   claim_C7_one_assignment_per_job.2.2.2.2 assignedState 1 5 600 700 2
     ⟨1, 5, 540, 720, .assigned⟩ (by decide) (by decide)⟩

/-- Claim C1, counterexample: from an overlap-free state the sequence
assign job 1 to vehicle 1, cancel job 1 (its row stays), assign the
overlapping job 2 to vehicle 1 (allowed: job 1 is inactive), reopen
job 1 to pending, ends with two active overlapping assignments on
vehicle 1 — the claimed invariant does not survive arbitrary sequences
of the three core operations. -/
theorem claim_C1_counterexample :
    noDoubleBooking baseState ∧
    ¬ noDoubleBooking (runOps baseState
      [.assign 1 1 none none 9, .update 1 .cancelled 9 none,
       .assign 2 1 none none 9, .update 1 .pending 9 none]) := by
  decide

/-- Claim C1, amended: the no-double-booking invariant is preserved by
every sequence of the core operations that contains no status update
reopening a cancelled job to pending while an assignment row for it
still exists (the one transition whose guard the code omits). -/
theorem claim_C1_no_double_booking_guarded (s t : DBState) (hinv : noDoubleBooking s)
    (hr : GuardedReach s t) : noDoubleBooking t := by
  induction hr with
  | refl => exact hinv
  | step op hre hguard ih => exact noDoubleBooking_applyOp _ op ih hguard

/-- Claim C1, witness for the amended theorem. -/
theorem claim_C1_witness :
    noDoubleBooking (applyOp baseState (.assign 1 1 none none 9)) :=
  claim_C1_no_double_booking_guarded baseState _ (by decide)
    (GuardedReach.step (.assign 1 1 none none 9) (GuardedReach.refl baseState) (by decide))

end RISystem
